import Mathlib

/-!
Verification development for the cyclomatic-complexity analyzer (src/main.cpp).

The program walks a libclang cursor tree.  We shallowly embed the tree as an
inductive `Cursor` carrying the attributes the program consumes: the cursor
kind, the spelling, the source line, the token spellings of the cursor's
source extent (what `clang_tokenize` of `clang_getCursorExtent` yields), and
the ordered children (what `clang_visitChildren` enumerates).

Reads of `expressionTokens[numLeftHandSideTokens]` in `getBinaryOperator` are
unchecked in the C++ (out-of-range is undefined behavior), so the embedded
resolver returns `Option String`, with `none` marking the unchecked access:
either the left operand is the null cursor (no first child — the C++ then
tokenizes a null extent and indexes through it unchecked) or the index
`numLeftHandSideTokens` is out of range for the expression's token array.
Failure is propagated through the traversal and the driver.
-/

/-- Cursor kinds (`CXCursorKind`) the program distinguishes, plus the other
kinds appearing in the concrete trees used below.  `other` stands for any
further kind; all of them are treated alike by the program. -/
inductive Kind : Type where
  | ifStmt
  | forStmt
  | whileStmt
  | defaultStmt
  | caseStmt
  | conditionalOperator
  | binaryOperator
  | functionDecl
  | translationUnit
  | compoundStmt
  | returnStmt
  | parmDecl
  | declRefExpr
  | integerLiteral
  | structDecl
  | other
deriving DecidableEq, Repr

/-- A node of the frontend's tree: kind, spelling, source line, token
spellings of its source extent, and ordered children. -/
inductive Cursor : Type where
  | mk : Kind → String → Nat → List String → List Cursor → Cursor
deriving Repr

def Cursor.kind : Cursor → Kind
  | .mk k _ _ _ _ => k

def Cursor.spelling : Cursor → String
  | .mk _ s _ _ _ => s

def Cursor.line : Cursor → Nat
  | .mk _ _ l _ _ => l

def Cursor.tokens : Cursor → List String
  | .mk _ _ _ t _ => t

def Cursor.children : Cursor → List Cursor
  | .mk _ _ _ _ c => c

/-- The global `decision_kinds` vector of main.cpp (lines 9–13). -/
def decision_kinds : List Kind :=
  [Kind.ifStmt, Kind.forStmt, Kind.whileStmt,
   Kind.defaultStmt, Kind.caseStmt,
   Kind.conditionalOperator, Kind.binaryOperator]

/-- `getFirstChild` (main.cpp lines 16–30): visit the children, record the
first one and break.  When there are no children the C++ returns the null
cursor, embedded here as `none`. -/
def getFirstChild (c : Cursor) : Option Cursor :=
  c.children.head?

/-- `getBinaryOperator` (main.cpp lines 33–52): tokenize the node's extent
(`c.tokens`), take the first child as the left operand, tokenize its extent,
and read the token at index `numLeftHandSideTokens` of the full expression's
token array.  The C++ read is unchecked; `none` marks the two unchecked
situations: the left operand is the null cursor (its extent is the null
range), or the index is out of range. -/
def getBinaryOperator (c : Cursor) : Option String :=
  match getFirstChild c with
  | none => none
  | some lhs => c.tokens.get? lhs.tokens.length

/-- The per-node contribution applied by `countEdgesAndNodesCallback`
(main.cpp lines 67–84) to the `EdgeAndNodeCounter`: a `(Δedges, Δnodes)`
pair, or `none` when the operator resolution performs an unchecked read. -/
def classify (c : Cursor) : Option (Int × Int) :=
  if c.kind ∈ decision_kinds then
    if c.kind = Kind.binaryOperator then
      match getBinaryOperator c with
      | none => none
      | some op => if op = "&&" ∨ op = "||" then some (2, 1) else some (0, 0)
    else
      some (2, 1)
  else
    some (0, 0)

mutual

/-- `countEdgesAndNodesCallback` (main.cpp lines 63–88) run from one cursor:
apply the node's contribution to the accumulated `(edges, nodes)` pair, then
recurse into all children via `clang_visitChildren`. -/
def countCallback : Cursor → Int × Int → Option (Int × Int)
  | .mk k sp ln tk cs, acc =>
    match classify (.mk k sp ln tk cs) with
    | none => none
    | some d => countChildren cs (acc.1 + d.1, acc.2 + d.2)

/-- The `clang_visitChildren` loop inside the callback: visit each child in
order, threading the accumulator; every child returns
`CXChildVisit_Continue`, so every sibling is visited. -/
def countChildren : List Cursor → Int × Int → Option (Int × Int)
  | [], acc => some acc
  | c :: rest, acc =>
    match countCallback c acc with
    | none => none
    | some acc2 => countChildren rest acc2

end

/-- `countEdgesAndNodes` (main.cpp lines 91–97): a fresh counter `(0, 0)`,
then the callback invoked on the cursor itself. -/
def countEdgesAndNodes (c : Cursor) : Option (Int × Int) :=
  countCallback c (0, 0)

/-- `computeCyclomaticComplexity` (main.cpp lines 100–106):
`edges - (nodes + 1) + 2`. -/
def computeCyclomaticComplexity (c : Cursor) : Option Int :=
  (countEdgesAndNodes c).map (fun p => p.1 - (p.2 + 1) + 2)

/-- One line of the report (main.cpp lines 150–160): declaration line,
function spelling, complexity. -/
structure ComplexityRecord : Type where
  line : Nat
  name : String
  complexity : Int
deriving DecidableEq, Repr

/-- The record built by `visitChildren_callback` for one function cursor. -/
def reportRecord (c : Cursor) : Option ComplexityRecord :=
  (computeCyclomaticComplexity c).map (fun m => ⟨c.line, c.spelling, m⟩)

/-- `visitChildren` + `visitChildren_callback` (main.cpp lines 144–172): the
callback fires once for each direct child of the root cursor, in order, and
returns `CXChildVisit_Continue` (not `CXChildVisit_Recurse`), so only direct
children of the root are examined; a record is appended for each child whose
kind is `CXCursor_FunctionDecl`. -/
def visitChildren (root : Cursor) : Option (List ComplexityRecord) :=
  root.children.foldlM
    (fun acc c =>
      if c.kind = Kind.functionDecl then
        (reportRecord c).map (fun r => acc ++ [r])
      else
        some acc)
    []

/-- The error message printed to `std::cerr` on parse failure
(main.cpp line 131). -/
def parseErrorMessage : String := "Error: Unable to parse translation unit.\n"

/-- The text of one appended report line (main.cpp line 160):
`line <space> name <space> complexity <newline>`. -/
def renderRecord (r : ComplexityRecord) : String :=
  toString r.line ++ " " ++ r.name ++ " " ++ toString r.complexity ++ "\n"

/-- The full text of the report log. -/
def renderLog (rs : List ComplexityRecord) : String :=
  String.join (rs.map renderRecord)

/-- Observable outcome of one process run: exit code, final content of the
output log `output.cy`, and what was written to the error channel. -/
structure RunResult : Type where
  exitCode : Int
  log : String
  errOutput : String
deriving DecidableEq, Repr

/-- `main` (main.cpp lines 175–193).  Parameters: `prevLog`, the content of
`output.cy` before the run; `parseResult`, the tree produced by the
frontend for the given input, or `none` if `clang_parseTranslationUnit2`
fails.  The run first truncates the log (line 178), then parses; on parse
failure it prints to `std::cerr` and calls `exit(1)` (lines 131–132),
leaving the truncated log; on success it appends one rendered record per
reported function and returns 0.  The overall `none` marks a run that hits
the resolver's unchecked read. -/
def runMain (prevLog : String) (parseResult : Option Cursor) : Option RunResult :=
  let truncated : String := ""
  match parseResult with
  | none => some ⟨1, truncated, parseErrorMessage⟩
  | some root =>
    (visitChildren root).map (fun recs => ⟨0, truncated ++ renderLog recs, ""⟩)

/-!  Specification-side counting functions, written from the spec's words,
to be compared with the embedded program. -/

/-- Spec §4.1 / §8: a "simple decision-point" kind — any decision kind other
than binary-operator (if, for, while, default branch, case branch,
conditional expression). -/
def isSimpleDecisionKind (k : Kind) : Bool :=
  match k with
  | .ifStmt | .forStmt | .whileStmt | .defaultStmt | .caseStmt
  | .conditionalOperator => true
  | _ => false

/-- Spec §4.1: a binary-operator node whose resolved operator symbol is
`&&` or `||`. -/
def isLogicalBinOp (c : Cursor) : Bool :=
  decide (c.kind = Kind.binaryOperator) &&
    (decide (getBinaryOperator c = some "&&") ||
     decide (getBinaryOperator c = some "||"))

mutual

/-- Number of simple decision-point nodes in the subtree rooted at `c`. -/
def simpleCount : Cursor → Nat
  | .mk k sp ln tk cs =>
    (if isSimpleDecisionKind k then 1 else 0) + simpleList cs

def simpleList : List Cursor → Nat
  | [] => 0
  | c :: rest => simpleCount c + simpleList rest

end

mutual

/-- Number of `&&`/`||` binary-operator nodes in the subtree rooted at `c`. -/
def logicalCount : Cursor → Nat
  | .mk k sp ln tk cs =>
    (if isLogicalBinOp (.mk k sp ln tk cs) then 1 else 0) + logicalList cs

def logicalList : List Cursor → Nat
  | [] => 0
  | c :: rest => logicalCount c + logicalList rest

end

mutual

/-- Whether every binary-operator node in the subtree resolves without the
unchecked read, i.e. the traversal of the subtree never fails. -/
def resolveOk : Cursor → Bool
  | .mk k sp ln tk cs =>
    (if k = Kind.binaryOperator
     then (getBinaryOperator (.mk k sp ln tk cs)).isSome
     else true) && resolveList cs

def resolveList : List Cursor → Bool
  | [] => true
  | c :: rest => resolveOk c && resolveList rest

end

mutual

/-- Number of function-definition-kind nodes in the whole subtree. -/
def functionDeclCount : Cursor → Nat
  | .mk k sp ln tk cs =>
    (if k = Kind.functionDecl then 1 else 0) + functionDeclList cs

def functionDeclList : List Cursor → Nat
  | [] => 0
  | c :: rest => functionDeclCount c + functionDeclList rest

end

mutual

/-- Depth-first pre-order listing of a subtree: the node itself, then the
pre-order listings of its children, left to right. -/
def preorder : Cursor → List Cursor
  | .mk k sp ln tk cs => Cursor.mk k sp ln tk cs :: preorderList cs

def preorderList : List Cursor → List Cursor
  | [] => []
  | c :: rest => preorder c ++ preorderList rest

end

/-- Applying one visited node's classifier contribution to a tally. -/
def applyClassify (acc : Int × Int) (c : Cursor) : Option (Int × Int) :=
  (classify c).map (fun d => (acc.1 + d.1, acc.2 + d.2))

/-!  Concrete trees, as the clang frontend shapes them, used as inputs for
witnesses and counterexamples. -/

/-- The expression `x + 1`: a binary-operator cursor whose extent tokenizes
to `x`, `+`, `1`, first child the reference to `x`. -/
def plusExpr : Cursor :=
  .mk .binaryOperator "" 1 ["x", "+", "1"]
    [.mk .declRefExpr "x" 1 ["x"] [],
     .mk .integerLiteral "" 1 ["1"] []]

/-- Tree of `int f(int x) \x7b return x + 1; \x7d`. -/
def returnPlusFn : Cursor :=
  .mk .functionDecl "f" 1 []
    [.mk .parmDecl "x" 1 ["int", "x"] [],
     .mk .compoundStmt "" 1 []
       [.mk .returnStmt "" 1 ["return", "x", "+", "1"] [plusExpr]]]

/-- The statement `if (b) \x7b \x7d`. -/
def innerIf : Cursor :=
  .mk .ifStmt "" 2 []
    [.mk .declRefExpr "b" 2 ["b"] [],
     .mk .compoundStmt "" 2 [] []]

/-- Tree of `int g(int a, int b) \x7b if (a) \x7b if (b) \x7b \x7d \x7d \x7d`. -/
def nestedIfFn : Cursor :=
  .mk .functionDecl "g" 1 []
    [.mk .parmDecl "a" 1 ["int", "a"] [],
     .mk .parmDecl "b" 1 ["int", "b"] [],
     .mk .compoundStmt "" 1 []
       [.mk .ifStmt "" 2 []
         [.mk .declRefExpr "a" 2 ["a"] [],
          .mk .compoundStmt "" 2 [] [innerIf]]]]

/-- The expression `a && b`. -/
def andExpr : Cursor :=
  .mk .binaryOperator "" 1 ["a", "&&", "b"]
    [.mk .declRefExpr "a" 1 ["a"] [],
     .mk .declRefExpr "b" 1 ["b"] []]

/-- Tree of `int h(int a, int b) \x7b return a && b; \x7d`. -/
def andFn : Cursor :=
  .mk .functionDecl "h" 1 []
    [.mk .parmDecl "a" 1 ["int", "a"] [],
     .mk .parmDecl "b" 1 ["int", "b"] [],
     .mk .compoundStmt "" 1 []
       [.mk .returnStmt "" 1 ["return", "a", "&&", "b"] [andExpr]]]

/-- A degenerate binary-operator cursor with no children: `getFirstChild`
returns the null cursor, and the resolver's read is unchecked. -/
def degenerateBinOp : Cursor :=
  .mk .binaryOperator "" 3 ["x", "+", "y"] []

/-- A function whose body contains the degenerate binary operator. -/
def degenerateFn : Cursor :=
  .mk .functionDecl "bad" 3 []
    [.mk .compoundStmt "" 3 [] [degenerateBinOp]]

/-- A tree whose only function-definition node sits two levels below the
root (inside a record scope), not among the root's direct children. -/
def nestedFnTree : Cursor :=
  .mk .translationUnit "" 0 []
    [.mk .structDecl "S" 1 []
      [.mk .functionDecl "m" 2 [] [.mk .compoundStmt "" 2 [] []]]]

/-- A flat translation unit with two top-level functions. -/
def twoFnTree : Cursor :=
  .mk .translationUnit "" 0 []
    [returnPlusFn,
     .mk .structDecl "T" 4 [] [],
     nestedIfFn]

/-!  Helper lemmas. -/

/-- A node's own contribution to the decision count: 1 when it is a simple
decision point or a resolved `&&`/`||` binary operator, else 0. -/
def headCount (c : Cursor) : Nat :=
  (if isSimpleDecisionKind c.kind then 1 else 0) +
    (if isLogicalBinOp c then 1 else 0)

theorem mem_decision_kinds_iff (k : Kind) :
    k ∈ decision_kinds ↔ (isSimpleDecisionKind k = true ∨ k = Kind.binaryOperator) := by
  cases k <;> simp [decision_kinds, isSimpleDecisionKind]

theorem classify_none_of (c : Cursor) (hk : c.kind = Kind.binaryOperator)
    (hop : getBinaryOperator c = none) : classify c = none := by
  simp [classify, hk, hop, decision_kinds]

theorem classify_ok (c : Cursor)
    (h : c.kind = Kind.binaryOperator → (getBinaryOperator c).isSome) :
    classify c = some (2 * (headCount c : Int), (headCount c : Int)) := by
  by_cases hk : c.kind = Kind.binaryOperator
  · rcases Option.isSome_iff_exists.mp (h hk) with ⟨op, hop⟩
    by_cases hlog : op = "&&" ∨ op = "||"
    · have hl : isLogicalBinOp c = true := by
        rcases hlog with h1 | h1 <;>
          simp [isLogicalBinOp, hk, hop, h1]
      simp [classify, hk, hop, hlog, decision_kinds, headCount, hl,
        isSimpleDecisionKind]
    · have hl : isLogicalBinOp c = false := by
        push_neg at hlog
        simp [isLogicalBinOp, hk, hop, hlog.1, hlog.2]
      simp [classify, hk, hop, hlog, decision_kinds, headCount, hl,
        isSimpleDecisionKind]
  · have hl : isLogicalBinOp c = false := by simp [isLogicalBinOp, hk]
    by_cases hs : isSimpleDecisionKind c.kind
    · have hm : c.kind ∈ decision_kinds := (mem_decision_kinds_iff _).mpr (Or.inl hs)
      simp [classify, hm, hk, headCount, hs, hl]
    · have hm : ¬ c.kind ∈ decision_kinds := by
        intro hmem
        rcases (mem_decision_kinds_iff _).mp hmem with h1 | h1
        · exact hs h1
        · exact hk h1
      simp [classify, hm, headCount, hs, hl]

mutual

theorem countCallback_eq : ∀ (c : Cursor) (acc : Int × Int),
    countCallback c acc =
      if resolveOk c
      then some (acc.1 + 2 * ((simpleCount c + logicalCount c : Nat) : Int),
                 acc.2 + ((simpleCount c + logicalCount c : Nat) : Int))
      else none
  | .mk k sp ln tk cs, acc => by
    have hrest := countChildren_eq cs
    by_cases hok : (Cursor.mk k sp ln tk cs).kind = Kind.binaryOperator →
        (getBinaryOperator (Cursor.mk k sp ln tk cs)).isSome = true
    · have hcl := classify_ok _ hok
      have hhead : (if k = Kind.binaryOperator
          then (getBinaryOperator (Cursor.mk k sp ln tk cs)).isSome
          else true) = true := by
        by_cases hk : k = Kind.binaryOperator
        · simpa [hk] using hok (by simp [Cursor.kind, hk])
        · simp [hk]
      rw [countCallback, hcl]
      dsimp only
      rw [hrest]
      simp only [resolveOk, hhead, Bool.true_and, simpleCount, logicalCount]
      by_cases hr : resolveList cs = true
      · simp only [hr, if_true]
        simp [headCount, Cursor.kind]
        constructor <;> push_cast <;> ring
      · simp [hr]
    · push_neg at hok
      obtain ⟨hk, hns⟩ := hok
      have hop : getBinaryOperator (Cursor.mk k sp ln tk cs) = none := by
        simpa using hns
      have hcl := classify_none_of _ hk hop
      have hk2 : k = Kind.binaryOperator := by simpa [Cursor.kind] using hk
      subst hk2
      rw [countCallback, hcl]
      simp [resolveOk, hop]

theorem countChildren_eq : ∀ (cs : List Cursor) (acc : Int × Int),
    countChildren cs acc =
      if resolveList cs
      then some (acc.1 + 2 * ((simpleList cs + logicalList cs : Nat) : Int),
                 acc.2 + ((simpleList cs + logicalList cs : Nat) : Int))
      else none
  | [], acc => by simp [countChildren, resolveList, simpleList, logicalList]
  | c :: rest, acc => by
    have h1 := countCallback_eq c acc
    have h2 := countChildren_eq rest
    rw [countChildren, h1]
    by_cases hc : resolveOk c = true
    · simp only [hc, if_true]
      rw [h2]
      simp only [resolveList, hc, Bool.true_and, simpleList, logicalList]
      by_cases hr : resolveList rest = true
      · simp only [hr, if_true]
        simp
        constructor <;> push_cast <;> ring
      · simp [hr]
    · simp [hc, resolveList]

end

theorem foldlM_append_option {α β : Type} (f : β → α → Option β)
    (l1 l2 : List α) : ∀ (b : β),
    (l1 ++ l2).foldlM f b = (l1.foldlM f b).bind (fun b2 => l2.foldlM f b2) := by
  induction l1 with
  | nil => intro b; simp
  | cons x xs ih =>
    intro b
    cases hfx : f b x with
    | none => simp [List.foldlM, hfx]
    | some b2 => simp [List.foldlM, hfx, ih b2]

mutual

theorem countCallback_foldlM : ∀ (c : Cursor) (acc : Int × Int),
    countCallback c acc = (preorder c).foldlM applyClassify acc
  | .mk k sp ln tk cs, acc => by
    have hrest := countChildren_foldlM cs
    rw [countCallback, preorder]
    cases hcl : classify (Cursor.mk k sp ln tk cs) with
    | none => simp [List.foldlM, applyClassify, hcl]
    | some d =>
      dsimp only
      rw [hrest]
      simp [List.foldlM, applyClassify, hcl]

theorem countChildren_foldlM : ∀ (cs : List Cursor) (acc : Int × Int),
    countChildren cs acc = (preorderList cs).foldlM applyClassify acc
  | [], acc => by simp [countChildren, preorderList, List.foldlM]
  | c :: rest, acc => by
    have h1 := countCallback_foldlM c acc
    have h2 := countChildren_foldlM rest
    rw [countChildren, preorderList, foldlM_append_option, ← h1]
    cases hc : countCallback c acc with
    | none => simp
    | some acc2 => simp [h2 acc2]

end

/-!  Shared derived lemmas. -/

/-- When the analysis of a subtree completes, the reported complexity is
1 plus the number of simple decision points plus the number of resolved
`&&`/`||` binary operators in the subtree. -/
theorem complexity_eq (c : Cursor) (m : Int)
    (h : computeCyclomaticComplexity c = some m) :
    m = 1 + (simpleCount c : Int) + (logicalCount c : Int) := by
  unfold computeCyclomaticComplexity countEdgesAndNodes at h
  rw [countCallback_eq] at h
  by_cases hr : resolveOk c = true
  · simp [hr] at h
    push_cast at h ⊢
    omega
  · simp [hr] at h

/-- Record count produced by the driver's fold, relative to a starting
accumulator. -/
theorem visitFold_length : ∀ (cs : List Cursor) (acc recs : List ComplexityRecord),
    cs.foldlM
      (fun acc c =>
        if c.kind = Kind.functionDecl then
          (reportRecord c).map (fun r => acc ++ [r])
        else
          some acc)
      acc = some recs →
    recs.length =
      acc.length + (cs.filter (fun c => c.kind = Kind.functionDecl)).length := by
  intro cs
  induction cs with
  | nil => intro acc recs h; simp [List.foldlM] at h; simp [h]
  | cons c rest ih =>
    intro acc recs h
    by_cases hk : c.kind = Kind.functionDecl
    · simp only [List.foldlM, hk, if_true] at h
      cases hrep : reportRecord c with
      | none => simp [hrep] at h
      | some r =>
        simp only [hrep, Option.map_some] at h
        have := ih (acc ++ [r]) recs h
        simp [List.filter, hk, this]
        omega
    · simp only [List.foldlM, hk, if_false] at h
      have := ih acc recs h
      simp [List.filter, hk, this]

/-!  Claim theorems. -/

/-- C1: for every function analyzed (whenever the analysis of its subtree
completes and a complexity is reported), the reported complexity equals
1 + (count of simple decision-point nodes in the subtree — if, for, while,
default branch, case branch, conditional expression) + (count of
binary-operator nodes in the subtree whose resolved operator symbol is
`&&` or `||`). -/
theorem complexity_formula (c : Cursor) (m : Int)
    (h : computeCyclomaticComplexity c = some m) :
    m = 1 + (simpleCount c : Int) + (logicalCount c : Int) :=
  complexity_eq c m h

/-- Witness for C1 at the nested-if function: reported complexity 3 equals
1 + 2 simple decision points + 0 logical operators. -/
theorem complexity_formula_witness :
    (3 : Int) = 1 + (simpleCount nestedIfFn : Int) + (logicalCount nestedIfFn : Int) :=
  complexity_formula nestedIfFn 3 (by rfl)

/-- C2 counterexample: in `nestedFnTree` the only function-definition node
sits two levels below the root, inside a record scope; the driver examines
only the root's direct children and reports nothing, so the report's record
count (0) is not the number of function-definition nodes in the whole
tree (1). -/
theorem driver_misses_nested_function :
    visitChildren nestedFnTree = some [] ∧
      functionDeclCount nestedFnTree = 1 ∧
      (visitChildren nestedFnTree).map List.length ≠
        some (functionDeclCount nestedFnTree) :=
  ⟨rfl, rfl, by decide⟩

/-- C2 amended: the driver's callback returns `CXChildVisit_Continue` and
never recurses, so only the root's direct children are examined; when the
run completes, the report's record count equals the number of
function-definition-kind nodes among the direct children of the root. -/
theorem driver_reports_direct_children (root : Cursor)
    (recs : List ComplexityRecord) (h : visitChildren root = some recs) :
    recs.length =
      (root.children.filter (fun c => c.kind = Kind.functionDecl)).length := by
  have := visitFold_length root.children [] recs h
  simpa using this

/-- Witness for the amended C2 at a flat translation unit with two
top-level functions and one record declaration. -/
theorem driver_reports_direct_children_witness :
    ([(⟨1, "f", 1⟩ : ComplexityRecord), ⟨1, "g", 3⟩].length) =
      ((twoFnTree.children).filter (fun c => c.kind = Kind.functionDecl)).length :=
  driver_reports_direct_children twoFnTree [⟨1, "f", 1⟩, ⟨1, "g", 3⟩] (by rfl)

/-- C3: a binary-operator node whose left operand is degenerate (no first
child) drives the resolver into its unguarded out-of-range read (embedded
as `none`), and nothing in the classifier, the traversal or the complexity
computation guards it: the failure propagates through the analysis of an
enclosing function. -/
theorem resolver_degenerate_unguarded :
    degenerateBinOp.kind = Kind.binaryOperator ∧
      getFirstChild degenerateBinOp = none ∧
      getBinaryOperator degenerateBinOp = none ∧
      classify degenerateBinOp = none ∧
      countEdgesAndNodes degenerateFn = none ∧
      computeCyclomaticComplexity degenerateFn = none :=
  ⟨rfl, rfl, rfl, rfl, rfl, rfl⟩

/-- C4: for a binary-operator node with a well-formed left operand — a
first child whose token count is in range for the node's own token
sequence `T` — the resolver returns the spelling of `T[len(L)]`, the token
immediately following as many tokens as the left operand occupies. -/
theorem resolver_token_index (c : Cursor) (lhs : Cursor)
    (h1 : getFirstChild c = some lhs)
    (h2 : lhs.tokens.length < c.tokens.length) :
    getBinaryOperator c = some (c.tokens.get ⟨lhs.tokens.length, h2⟩) := by
  simp [getBinaryOperator, h1, List.get?_eq_get h2]

/-- Witness for C4 at the expression `a && b`: the left operand `a` spans
one token, and the resolver returns token index 1, the `&&`. -/
theorem resolver_token_index_witness :
    getBinaryOperator andExpr = some "&&" := by
  have h := resolver_token_index andExpr
    (Cursor.mk Kind.declRefExpr "a" 1 ["a"] []) (by rfl) (by decide)
  simpa using h

/-- C5: classifying a binary-operator node whose resolved symbol is neither
`&&` nor `||` contributes `(0, 0)`, leaving the tally unchanged, and a
function whose body is only `return x + 1;` is reported with
complexity 1. -/
theorem non_logical_binop_no_contribution (c : Cursor) (op : String)
    (hk : c.kind = Kind.binaryOperator)
    (hop : getBinaryOperator c = some op)
    (hand : op ≠ "&&") (hor : op ≠ "||") :
    classify c = some (0, 0) ∧
      (∀ acc : Int × Int, applyClassify acc c = some acc) ∧
      computeCyclomaticComplexity returnPlusFn = some 1 := by
  have hcl : classify c = some (0, 0) := by
    simp [classify, hk, decision_kinds, hop, hand, hor]
  refine ⟨hcl, ?_, by rfl⟩
  intro acc
  simp [applyClassify, hcl]

/-- Witness for C5 at the `+` node of `x + 1`. -/
theorem non_logical_binop_no_contribution_witness :
    classify plusExpr = some (0, 0) ∧
      (∀ acc : Int × Int, applyClassify acc plusExpr = some acc) ∧
      computeCyclomaticComplexity returnPlusFn = some 1 :=
  non_logical_binop_no_contribution plusExpr "+" rfl rfl (by decide) (by decide)

/-- C6: running the callback from any node is exactly a fold of the
classifier's contributions over the depth-first pre-order listing of the
node and all its descendants — each node's contribution is applied before
its children's, siblings left to right, with no early termination and with
descent into decision-point nodes themselves — and nested decision points
count independently: the function with `if (a) \x7b if (b) \x7b \x7d \x7d`
gets complexity 3. -/
theorem traversal_preorder (c : Cursor) (acc : Int × Int) :
    countCallback c acc = (preorder c).foldlM applyClassify acc ∧
      computeCyclomaticComplexity nestedIfFn = some 3 :=
  ⟨countCallback_foldlM c acc, by rfl⟩

/-- Witness for C6 at the inner `if` subtree. -/
theorem traversal_preorder_witness :
    countCallback innerIf (0, 0) = (preorder innerIf).foldlM applyClassify (0, 0) ∧
      computeCyclomaticComplexity nestedIfFn = some 3 :=
  traversal_preorder innerIf (0, 0)

/-- C7: every reported complexity is at least 1, and a function whose
subtree contains zero decision points (no simple decision-point node and no
`&&`/`||` binary operator) is reported with complexity exactly 1. -/
theorem complexity_at_least_one (c : Cursor) (m : Int)
    (h : computeCyclomaticComplexity c = some m) :
    1 ≤ m ∧ (simpleCount c = 0 → logicalCount c = 0 → m = 1) := by
  have := complexity_eq c m h
  constructor
  · omega
  · intro h1 h2
    omega

/-- Witness for C7 at the decision-free function `f`. -/
theorem complexity_at_least_one_witness :
    (1 : Int) ≤ 1 ∧
      (simpleCount returnPlusFn = 0 → logicalCount returnPlusFn = 0 → (1 : Int) = 1) :=
  complexity_at_least_one returnPlusFn 1 (by rfl)

/-- C8: when the frontend's parse step fails, the run writes the error
message to the error channel and terminates with the non-zero exit code 1,
having produced no output records, and the output log — truncated at
process start — is left empty, whatever it contained before the run. -/
theorem parse_failure_behavior (prevLog : String) :
    runMain prevLog none = some ⟨1, "", parseErrorMessage⟩ ∧
      (1 : Int) ≠ 0 ∧ ("" : String) = renderLog [] :=
  ⟨rfl, by decide, rfl⟩

/-- Witness for C8 with a stale record in the pre-existing log. -/
theorem parse_failure_behavior_witness :
    runMain "13 stale 4\n" none = some ⟨1, "", parseErrorMessage⟩ ∧
      (1 : Int) ≠ 0 ∧ ("" : String) = renderLog [] :=
  parse_failure_behavior "13 stale 4\n"

/-- C9: the outcome of a run — in particular the final content of the
output log — depends only on the parse of the input, never on the previous
log content, because the log is truncated at process start and regenerated
deterministically; two runs on the same input therefore produce
byte-identical logs. -/
theorem run_deterministic (p : Option Cursor) (prev1 prev2 : String) :
    runMain prev1 p = runMain prev2 p ∧
      (runMain prev1 p).map RunResult.log = (runMain prev2 p).map RunResult.log := by
  cases p <;> exact ⟨rfl, rfl⟩

/-- Witness for C9: a run over the two-function tree gives the same log
from an empty and from a stale previous log. -/
theorem run_deterministic_witness :
    runMain "" (some twoFnTree) = runMain "99 stale 7\n" (some twoFnTree) ∧
      (runMain "" (some twoFnTree)).map RunResult.log =
        (runMain "99 stale 7\n" (some twoFnTree)).map RunResult.log :=
  run_deterministic (some twoFnTree) "" "99 stale 7\n"

/-- C10: from any tally with `edges = 2 · nodes` the traversal preserves
`edges = 2 · nodes` (every contribution adds 2 edges and 1 node, or
nothing); the real traversal starts at `(0, 0)`, and from there the final
complexity equals `nodes + 1`. -/
theorem tally_invariant (c : Cursor) (e0 n0 e n : Int)
    (h : countCallback c (e0, n0) = some (e, n)) (h0 : e0 = 2 * n0) :
    e = 2 * n ∧
      (e0 = 0 → n0 = 0 → computeCyclomaticComplexity c = some (n + 1)) := by
  rw [countCallback_eq] at h
  by_cases hr : resolveOk c = true
  · simp only [hr, if_true, Option.some.injEq, Prod.mk.injEq] at h
    obtain ⟨he, hn⟩ := h
    constructor
    · omega
    · intro he0 hn0
      unfold computeCyclomaticComplexity countEdgesAndNodes
      rw [countCallback_eq]
      simp only [hr, if_true, Option.map_some', Option.some.injEq]
      omega
  · simp [hr] at h

/-- Witness for C10 at the nested-if function: the traversal from `(0, 0)`
ends at `(4, 2)` and the reported complexity is `2 + 1 = 3`. -/
theorem tally_invariant_witness :
    (4 : Int) = 2 * 2 ∧
      ((0 : Int) = 0 → (0 : Int) = 0 →
        computeCyclomaticComplexity nestedIfFn = some (2 + 1)) :=
  tally_invariant nestedIfFn 0 0 4 2 (by rfl) (by decide)
